import Mathlib

/-!
Verification of the Sangin-Snoop availability-checker pipeline
(src/Sanginsnoop.py) against its specification.

The script is a linear fetch-classify-diff-notify-persist pipeline.  We give a
shallow embedding: the HTTP transport, the HTML text extraction and the webhook
POST are black boxes, modelled as environment data (a response per request);
every piece of program logic (keyword classification, change detection,
snapshot construction, layered discovery, notification control flow, the main
pipeline ordering) is translated directly from the Python source.

Python strings are modelled as Lean `String`; `x in s` (substring test) and
`s.lower()` are given structural implementations over `String.data` so that
every definition evaluates by kernel reduction.  Python dicts are modelled as
association lists in insertion order (`List (String × String)`), with
`List.lookup` playing the role of `dict.get` and in-place-or-append insertion
(`dictInsert`) playing the role of dict-comprehension assignment.
-/

/-- Substring occurrence test on character lists: does `pat` occur (contiguously)
inside the second list?  Mirrors Python's `pat in text` for strings. -/
def containsSub (pat : List Char) : List Char → Bool
  | [] => pat.isEmpty
  | c :: t => pat.isPrefixOf (c :: t) || containsSub pat t

/-- Python's `pat in s` substring test, lifted to `String`. -/
def strContains (s pat : String) : Bool := containsSub pat.data s.data

/-- Python's `s.lower()` (over the ASCII range, which covers every keyword the
script searches for). -/
def lowerStr (s : String) : String := ⟨s.data.map Char.toLower⟩

/-- Splitting a character list at every (non-overlapping, leftmost-first)
occurrence of a separator, as Python's `s.split(sep)` for non-empty `sep`.
The fuel argument is an upper bound on the number of characters consumed;
each step consumes at least one character, so `text.length` suffices. -/
def splitOnFuel (sep : List Char) : Nat → List Char → List Char → List (List Char)
  | 0, text, acc => [acc.reverse ++ text]
  | fuel + 1, text, acc =>
    match text with
    | [] => [acc.reverse]
    | c :: rest =>
      if sep.isPrefixOf (c :: rest) ∧ sep ≠ [] then
        acc.reverse :: splitOnFuel sep fuel ((c :: rest).drop sep.length) []
      else
        splitOnFuel sep fuel rest (acc ++ [c])

/-- Python's `s.split(sep)` for strings (used with the non-empty separators
"/products/", "?" and "/"). -/
def splitOnStr (s sep : String) : List String :=
  (splitOnFuel sep.data s.data.length s.data []).map (fun l => ⟨l⟩)

/-- Product status record, from the `ProductStatus` dataclass (src lines 93-99). -/
structure ProductStatus where
  handle : String
  url : String
  status : String
deriving DecidableEq

/-- Base URL constant (src line 73). -/
def BASE_URL : String := "https://sangininstruments.com"

/-- Hardcoded fallback handle list (src lines 76-90). -/
def FALLBACK_HANDLES : List String :=
  ["atlas-ii", "overlord", "professional", "neptune", "merlin", "dark-merlin",
   "kingmaker", "kinetic-ii", "kinetic-ii-ti", "hydra",
   "overlord-special-edition", "kinetic-gypsy", "marauder"]

/-- Keyword classification of the extracted page text (src lines 222-229):
lower-case the text, then first match wins among "sold out", then
"add to cart" / "add to basket", else the literal unknown status. -/
def classifyText (text : String) : String :=
  let page_text := lowerStr text
  if strContains page_text "sold out" then "sold out"
  else if strContains page_text "add to cart" || strContains page_text "add to basket" then
    "available"
  else "unknown â€“ check page manually"

/-- Result of one black-box page fetch: either a transport-level exception
(requests.RequestException, carrying its message) or a response with an HTTP
status code and the visible text extracted from the body
(soup.get_text(" "), before lower-casing). -/
inductive FetchResult where
  | exc (msg : String)
  | ok (status : Nat) (text : String)
deriving DecidableEq

/-- Availability check for a single product (src lines 200-231): build the
product URL; a transport failure yields the "error: ..." status, a response
with status code >= 400 yields the "unreachable (HTTP code)" status, and any
other response is classified from its page text. -/
def check_product_availability (handle : String) (resp : FetchResult) : ProductStatus :=
  let url := BASE_URL ++ "/products/" ++ handle
  match resp with
  | .exc msg => ⟨handle, url, "error: " ++ msg⟩
  | .ok status text =>
    if 400 ≤ status then ⟨handle, url, "unreachable (HTTP " ++ toString status ++ ")"⟩
    else ⟨handle, url, classifyText text⟩

/-- Sequential scrape of all handles (src lines 234-255); the politeness
sleep between fetches has no observable effect in the model. -/
def scrape_products (handles : List String) (fetch : String → FetchResult) :
    List ProductStatus :=
  handles.map (fun h => check_product_availability h (fetch h))

/-- Change record, from the dict built at src lines 319-324. -/
structure Change where
  handle : String
  old_status : String
  new_status : String
  url : String
deriving DecidableEq

/-- New-product record, from the dict built at src lines 313-317. -/
structure NewProduct where
  handle : String
  status : String
  url : String
deriving DecidableEq

/-- Change detection (src lines 298-325): walk the current results in order;
an item whose handle is absent from the previous snapshot is reported as new
only when the previous snapshot is non-empty, and an item present with a
different status is reported as changed. -/
def detect_changes (results : List ProductStatus) (previous : List (String × String)) :
    List Change × List NewProduct :=
  match results with
  | [] => ([], [])
  | item :: rest =>
    let old? := previous.lookup item.handle
    let tail := detect_changes rest previous
    match old? with
    | none =>
      if previous.isEmpty then tail
      else (tail.1, ⟨item.handle, item.status, item.url⟩ :: tail.2)
    | some old =>
      if old ≠ item.status then (⟨item.handle, old, item.status, item.url⟩ :: tail.1, tail.2)
      else tail

/-- Selector describing which change record (if any) a single result item
contributes under a given previous snapshot; the loop body of detect_changes
for the first output list. -/
def changeOf (previous : List (String × String)) (item : ProductStatus) : Option Change :=
  match previous.lookup item.handle with
  | none => none
  | some old => if old ≠ item.status then some ⟨item.handle, old, item.status, item.url⟩ else none

/-- Selector describing which new-product record (if any) a single result item
contributes under a given previous snapshot; the loop body of detect_changes
for the second output list. -/
def newOf (previous : List (String × String)) (item : ProductStatus) : Option NewProduct :=
  match previous.lookup item.handle with
  | none => if previous.isEmpty then none else some ⟨item.handle, item.status, item.url⟩
  | some _ => none

/-- Insertion into an insertion-ordered association list: replace the value at
the first occurrence of the key in place, or append a fresh binding at the
end.  This is exactly how a Python dict comprehension accumulates bindings. -/
def dictInsert : List (String × String) → String → String → List (String × String)
  | [], k, v => [(k, v)]
  | (k', v') :: rest, k, v =>
    if k' = k then (k', v) :: rest else (k', v') :: dictInsert rest k v

/-- Snapshot persisted by save_current_status (src lines 269-273): the dict
comprehension item.handle -> item.status over the results list. -/
def save_current_status (results : List ProductStatus) : List (String × String) :=
  results.foldl (fun d item => dictInsert d item.handle item.status) []

/-- Product entry of a Shopify products.json response: only its optional
"handle" field matters to the script. -/
structure DiscProduct where
  handle? : Option String
deriving DecidableEq

/-- Result of one black-box products.json fetch: a raised
requests.RequestException, or a response with a status code and a body that
either fails to parse as JSON (raising json.JSONDecodeError, modelled as
`none`) or yields the "products" list (`data.get("products", [])`, so a
missing field is the empty list). -/
inductive JsonResp where
  | exc
  | ok (status : Nat) (body : Option (List DiscProduct))

/-- Result of the black-box fetch of the collections/all page: a raised
requests.RequestException, or a response with a status code and the list of
href attributes of its anchor tags. -/
inductive PageResp where
  | exc
  | ok (status : Nat) (links : List String)

/-- Environment of one discovery run: the products.json response, the
per-page responses of the paginated endpoint, and the collections page. -/
structure DiscEnv where
  m1 : JsonResp
  m2 : Nat → JsonResp
  m3 : PageResp

/-- Which discovery layer produced the returned handles, matching the
distinct progress message the script prints on each return path. -/
inductive DiscMethod where
  | single
  | paginated
  | scrape
  | fallback
deriving DecidableEq

/-- Discovery method 1 (src lines 138-149): fetch products.json once; on
status 200 with a parsed body, extract the handle of every product that has
one, and succeed iff that extraction is non-empty.  Any exception or non-200
status falls through (result `none`). -/
def method1 (env : DiscEnv) : Option (List String) :=
  match env.m1 with
  | .exc => none
  | .ok status body =>
    if status = 200 then
      match body with
      | none => none
      | some products =>
        let handles := products.filterMap (fun p => p.handle?)
        if handles.isEmpty then none else some handles
    else none

/-- Discovery method 2 loop (src lines 151-172): fetch pages 1, 2, ... of
products.json (at most 10); stop normally on a non-200 status or an empty
products list, accumulate extracted handles otherwise.  The Bool is true when
the loop was aborted by an exception (transport failure or JSON decode
failure), in which case the accumulator survives into method 3 but the
method's own return is skipped. -/
def m2loop (m2 : Nat → JsonResp) : Nat → Nat → List String → List String × Bool
  | 0, _, acc => (acc, false)
  | fuel + 1, page, acc =>
    match m2 page with
    | .exc => (acc, true)
    | .ok status body =>
      if status ≠ 200 then (acc, false)
      else
        match body with
        | none => (acc, true)
        | some products =>
          if products.isEmpty then (acc, false)
          else m2loop m2 fuel (page + 1) (acc ++ products.filterMap (fun p => p.handle?))

/-- Python's `list(dict.fromkeys(handles))` (src line 170), with an explicit
seen-set accumulator: drop every occurrence of an element after its first. -/
def dedupFirstAux : List String → List String → List String
  | _, [] => []
  | seen, h :: t => if h ∈ seen then dedupFirstAux seen t else h :: dedupFirstAux (h :: seen) t

/-- Deduplication preserving the order of first occurrence. -/
def dedupFirst (l : List String) : List String := dedupFirstAux [] l

/-- Discovery method 3 loop body (src lines 180-188): for each href containing
"/products/", split on that marker, extract the segment after it up to the
first "?" or "/", and append it to the accumulator unless it is empty or
already present. -/
def scrapeLoop : List String → List String → List String
  | acc, [] => acc
  | acc, href :: rest =>
    if strContains href "/products/" then
      let parts := splitOnStr href "/products/"
      if parts.length > 1 then
        let seg := (splitOnStr (parts.getD 1 "") "?").getD 0 ""
        let handle := (splitOnStr seg "/").getD 0 ""
        if handle ≠ "" ∧ handle ∉ acc then scrapeLoop (acc ++ [handle]) rest
        else scrapeLoop acc rest
      else scrapeLoop acc rest
    else scrapeLoop acc rest

/-- Layered product discovery (src lines 119-197).  Method 1: single
products.json page.  Method 2: paginated products.json, capped at 10 pages,
returning the deduplicated accumulator when the loop ended without an
exception and accumulated anything.  Method 3: scrape the collections page
(starting from the accumulator left over by method 2, which is empty unless
method 2 was aborted by an exception after extending it).  Method 4: the
hardcoded fallback list.  Every failure is caught, so discovery always
returns. -/
def discover_products (env : DiscEnv) : List String × DiscMethod :=
  match method1 env with
  | some handles => (handles, .single)
  | none =>
    let p := m2loop env.m2 10 1 []
    if p.2 = false ∧ p.1 ≠ [] then (dedupFirst p.1, .paginated)
    else
      match env.m3 with
      | .exc => (FALLBACK_HANDLES, .fallback)
      | .ok status links =>
        if status = 200 then
          let handles := scrapeLoop p.1 links
          if handles ≠ [] then (handles, .scrape) else (FALLBACK_HANDLES, .fallback)
        else (FALLBACK_HANDLES, .fallback)

/-- Observable side effects of one invocation, in program order: the single
webhook POST (if any), the overwrite of the durable snapshot file with its
new contents, and the write of the public status export. -/
inductive Event where
  | discordPost
  | saveCache (snapshot : List (String × String))
  | savePublic
deriving DecidableEq

/-- Result of the black-box webhook POST: a raised requests.RequestException
or a response status code. -/
inductive PostResp where
  | exc
  | ok (status : Nat)
deriving DecidableEq

/-- Discord notification (src lines 328-411): with nothing to report, return
True without any outbound call; otherwise make exactly one POST and report
success iff it answered 204, mapping a transport failure to False instead of
raising.  The embed/payload construction (src lines 352-400) is purely
presentational and carries no further control flow.  The second component is
the list of outbound calls made. -/
def send_discord_notification (webhook_url : String) (changes : List Change)
    (new_products : List NewProduct) (post : PostResp) : Bool × List Event :=
  if changes.isEmpty ∧ new_products.isEmpty then (true, [])
  else
    match post with
    | .exc => (false, [.discordPost])
    | .ok status => (status = 204, [.discordPost])

/-- Environment of one whole invocation: discovery responses, one fetch
result per product page, the previously persisted snapshot as loaded by
load_previous_status (empty when missing or corrupt), the optional
DISCORD_WEBHOOK_URL, and the webhook POST outcome. -/
structure MainEnv where
  disc : DiscEnv
  fetch : String → FetchResult
  previous : List (String × String)
  webhook : Option String
  post : PostResp

/-- Observable outcome of one invocation of main. -/
structure MainResult where
  results : List ProductStatus
  changes : List Change
  new_products : List NewProduct
  notified : Option Bool
  trace : List Event

/-- Notification step of main (src lines 462-474): only when something was
detected and DISCORD_WEBHOOK_URL is configured is the notifier invoked; the
first component is its reported outcome (none when it was not invoked), the
second the outbound calls made. -/
def notifyStep (webhook : Option String) (changes : List Change)
    (new_products : List NewProduct) (post : PostResp) : Option Bool × List Event :=
  if ¬changes.isEmpty ∨ ¬new_products.isEmpty then
    match webhook with
    | some url =>
      let r := send_discord_notification url changes new_products post
      (some r.1, r.2)
    | none => (none, [])
  else (none, ([] : List Event))

namespace Sanginsnoop

/-- The main pipeline (src lines 414-487): discover, scrape, load previous,
diff, notify only when something was detected and a webhook is configured,
then unconditionally overwrite the durable snapshot and write the public
export.  Console output is not modelled. -/
def main (env : MainEnv) : MainResult :=
  let handles := (discover_products env.disc).1
  let results := scrape_products handles env.fetch
  let diffs := detect_changes results env.previous
  let notir := notifyStep env.webhook diffs.1 diffs.2 env.post
  { results := results
    changes := diffs.1
    new_products := diffs.2
    notified := notir.1
    trace := notir.2 ++ [.saveCache (save_current_status results), .savePublic] }

end Sanginsnoop

/-- Projection selecting the durable-snapshot writes from a trace. -/
def cacheWriteOf : Event → Option (List (String × String))
  | .saveCache snapshot => some snapshot
  | _ => none

/-! ## Change detection -/

/-- The two outputs of detect_changes are the filterMaps of the per-item
selectors over the results list, in list order. -/
lemma detect_changes_eq_filterMap (results : List ProductStatus)
    (previous : List (String × String)) :
    detect_changes results previous =
      (results.filterMap (changeOf previous), results.filterMap (newOf previous)) := by
  induction results with
  | nil => rfl
  | cons item rest ih =>
    simp only [detect_changes, ih, List.filterMap_cons, changeOf, newOf]
    cases h : previous.lookup item.handle with
    | none => by_cases hp : previous.isEmpty <;> simp [hp]
    | some old => by_cases hs : old = item.status <;> simp [hs]

/-- Characterization of the change selector. -/
lemma changeOf_eq_some_iff {previous : List (String × String)} {item : ProductStatus}
    {c : Change} :
    changeOf previous item = some c ↔
      previous.lookup item.handle = some c.old_status ∧ c.old_status ≠ item.status ∧
        c.handle = item.handle ∧ c.new_status = item.status ∧ c.url = item.url := by
  unfold changeOf
  cases h : previous.lookup item.handle with
  | none => simp
  | some old =>
    by_cases hs : old = item.status
    · subst hs
      dsimp only
      rw [if_neg (fun hh => hh rfl)]
      constructor
      · intro hc; cases hc
      · rintro ⟨h1, h2, -⟩
        exact absurd (Option.some.inj h1).symm h2
    · dsimp only
      rw [if_pos hs]
      constructor
      · intro hc
        obtain rfl := Option.some.inj hc
        exact ⟨rfl, hs, rfl, rfl, rfl⟩
      · rintro ⟨h1, -, h3, h4, h5⟩
        have ho := Option.some.inj h1
        cases c
        dsimp only at ho h3 h4 h5 ⊢
        subst_vars
        rfl

/-- Characterization of the new-product selector. -/
lemma newOf_eq_some_iff {previous : List (String × String)} {item : ProductStatus}
    {n : NewProduct} :
    newOf previous item = some n ↔
      previous.lookup item.handle = none ∧ previous ≠ [] ∧
        n.handle = item.handle ∧ n.status = item.status ∧ n.url = item.url := by
  unfold newOf
  cases h : previous.lookup item.handle with
  | some old => simp
  | none =>
    by_cases hp : previous.isEmpty
    · simp [List.isEmpty_iff.mp hp]
    · have hne : previous ≠ [] := fun he => hp (by simp [he])
      rw [if_neg hp]
      constructor
      · intro hc
        obtain rfl := Option.some.inj hc
        exact ⟨rfl, hne, rfl, rfl, rfl⟩
      · rintro ⟨-, -, h3, h4, h5⟩
        cases n
        dsimp only at h3 h4 h5
        subst_vars
        rfl

/-- C1: detect_changes emits a change record exactly for the items whose
handle is present in the previous snapshot with a different state, a
new-product record exactly for the items absent from a non-empty previous
snapshot, and nothing at all when the previous snapshot is empty; every
emitted record carries the item's own handle, states and url. -/
theorem detect_changes_spec (results : List ProductStatus)
    (previous : List (String × String)) :
    (previous = [] → detect_changes results previous = ([], [])) ∧
    (∀ c : Change, c ∈ (detect_changes results previous).1 ↔
      ∃ item ∈ results, previous.lookup item.handle = some c.old_status ∧
        c.old_status ≠ item.status ∧ c.handle = item.handle ∧
        c.new_status = item.status ∧ c.url = item.url) ∧
    (∀ n : NewProduct, n ∈ (detect_changes results previous).2 ↔
      previous ≠ [] ∧ ∃ item ∈ results, previous.lookup item.handle = none ∧
        n.handle = item.handle ∧ n.status = item.status ∧ n.url = item.url) := by
  refine ⟨?_, ?_, ?_⟩
  · rintro rfl
    rw [detect_changes_eq_filterMap]
    simp [changeOf, newOf, List.lookup]
  · intro c
    rw [detect_changes_eq_filterMap]
    simp only [List.mem_filterMap]
    constructor
    · rintro ⟨item, hm, he⟩
      exact ⟨item, hm, changeOf_eq_some_iff.mp he⟩
    · rintro ⟨item, hm, hp⟩
      exact ⟨item, hm, changeOf_eq_some_iff.mpr hp⟩
  · intro n
    rw [detect_changes_eq_filterMap]
    simp only [List.mem_filterMap]
    constructor
    · rintro ⟨item, hm, he⟩
      obtain ⟨h1, hne, hrest⟩ := newOf_eq_some_iff.mp he
      exact ⟨hne, item, hm, h1, hrest⟩
    · rintro ⟨hne, item, hm, h1, h2⟩
      exact ⟨item, hm, newOf_eq_some_iff.mpr ⟨h1, hne, h2⟩⟩

/-- C1 witness: a concrete run exercising an empty previous snapshot. -/
theorem detect_changes_spec_witness :
    detect_changes [⟨"overlord", "https://sangininstruments.com/products/overlord", "sold out"⟩]
      ([] : List (String × String)) = ([], []) :=
  (detect_changes_spec
    [⟨"overlord", "https://sangininstruments.com/products/overlord", "sold out"⟩] []).1 rfl

/-- C8: diffing a snapshot against itself, item for item, reports no changes
and no new products. -/
theorem detect_changes_idempotent (results : List ProductStatus)
    (previous : List (String × String))
    (h : ∀ item ∈ results, previous.lookup item.handle = some item.status) :
    detect_changes results previous = ([], []) := by
  rw [detect_changes_eq_filterMap]
  simp only [Prod.mk.injEq, List.filterMap_eq_nil_iff]
  constructor
  · intro item hm
    simp [changeOf, h item hm]
  · intro item hm
    simp [newOf, h item hm]

/-- C8 witness: the self-diff of a concrete one-product snapshot is empty. -/
theorem detect_changes_idempotent_witness :
    detect_changes [⟨"atlas-ii", "https://sangininstruments.com/products/atlas-ii", "available"⟩]
      [("atlas-ii", "available")] = ([], []) :=
  detect_changes_idempotent _ _ (by decide)

/-- C10: each result item contributes to at most one of the two output lists
(the selectors are mutually exclusive), every emitted record copies the
item's handle, state and url, and both outputs are filterMaps of the results
list and hence preserve its relative order. -/
theorem detect_changes_partition (results : List ProductStatus)
    (previous : List (String × String)) :
    detect_changes results previous =
      (results.filterMap (changeOf previous), results.filterMap (newOf previous)) ∧
    (∀ item, changeOf previous item = none ∨ newOf previous item = none) ∧
    (∀ item c, changeOf previous item = some c →
      c.handle = item.handle ∧ c.new_status = item.status ∧ c.url = item.url) ∧
    (∀ item n, newOf previous item = some n →
      n.handle = item.handle ∧ n.status = item.status ∧ n.url = item.url) := by
  refine ⟨detect_changes_eq_filterMap results previous, ?_, ?_, ?_⟩
  · intro item
    cases h : previous.lookup item.handle with
    | none => left; simp [changeOf, h]
    | some old => right; simp [newOf, h]
  · intro item c hc
    obtain ⟨-, -, h3, h4, h5⟩ := changeOf_eq_some_iff.mp hc
    exact ⟨h3, h4, h5⟩
  · intro item n hn
    obtain ⟨-, -, h3⟩ := newOf_eq_some_iff.mp hn
    exact h3

/-! ## Snapshot persistence (status_cache.json contents) -/

/-- Looking up the inserted key finds the inserted value. -/
lemma lookup_dictInsert_self (d : List (String × String)) (k v : String) :
    (dictInsert d k v).lookup k = some v := by
  induction d with
  | nil => simp [dictInsert, List.lookup]
  | cons p rest ih =>
    obtain ⟨k', v'⟩ := p
    by_cases h : k' = k
    · subst h; simp [dictInsert, List.lookup]
    · have hb : (k == k') = false := beq_eq_false_iff_ne.mpr (Ne.symm h)
      simp [dictInsert, h, List.lookup, hb, ih]

/-- Insertion does not disturb the binding of any other key. -/
lemma lookup_dictInsert_ne (d : List (String × String)) (k v k' : String) (h : k' ≠ k) :
    (dictInsert d k v).lookup k' = d.lookup k' := by
  induction d with
  | nil =>
    have hb : (k' == k) = false := beq_eq_false_iff_ne.mpr h
    simp [dictInsert, List.lookup, hb]
  | cons p rest ih =>
    obtain ⟨k'', v''⟩ := p
    by_cases he : k'' = k
    · subst he
      have hb : (k' == k'') = false := beq_eq_false_iff_ne.mpr h
      simp [dictInsert, List.lookup, hb]
    · by_cases he' : k' = k''
      · subst he'; simp [dictInsert, he, List.lookup]
      · have hb : (k' == k'') = false := beq_eq_false_iff_ne.mpr he'
        simp [dictInsert, he, List.lookup, hb, ih]

/-- Key list after insertion: unchanged when the key was present, else the
key is appended. -/
lemma keys_dictInsert (d : List (String × String)) (k v : String) :
    (dictInsert d k v).map Prod.fst =
      if k ∈ d.map Prod.fst then d.map Prod.fst else d.map Prod.fst ++ [k] := by
  induction d with
  | nil => simp [dictInsert]
  | cons p rest ih =>
    obtain ⟨k', v'⟩ := p
    by_cases h : k' = k
    · subst h; simp [dictInsert]
    · by_cases hm : k ∈ rest.map Prod.fst <;>
        simp [dictInsert, h, Ne.symm h, hm, ih]

/-- Insertion preserves distinctness of the keys. -/
lemma nodup_keys_dictInsert (d : List (String × String)) (k v : String)
    (h : (d.map Prod.fst).Nodup) : ((dictInsert d k v).map Prod.fst).Nodup := by
  rw [keys_dictInsert]
  by_cases hm : k ∈ d.map Prod.fst
  · simpa [hm]
  · simp [hm, List.nodup_append, h, List.disjoint_singleton]

/-- Folding the status-dict comprehension over the results: the final binding
of a key is the status of its last occurrence in the list, and keys bound in
neither place stay as in the accumulator. -/
lemma save_foldl_lookup (results : List ProductStatus) :
    ∀ (d : List (String × String)) (h : String),
      (results.foldl (fun d item => dictInsert d item.handle item.status) d).lookup h =
        match results.reverse.find? (fun i => i.handle == h) with
        | some i => some i.status
        | none => d.lookup h := by
  induction results with
  | nil => intro d h; rfl
  | cons item rest ih =>
    intro d h
    rw [List.foldl_cons, ih, List.reverse_cons, List.find?_append]
    cases hf : rest.reverse.find? (fun i => i.handle == h) with
    | some j => rfl
    | none =>
      by_cases hb : item.handle = h
      · subst hb
        simp [List.find?, lookup_dictInsert_self]
      · have hbeq : (item.handle == h) = false := beq_eq_false_iff_ne.mpr hb
        simp [List.find?, hbeq, lookup_dictInsert_ne _ _ _ _ (Ne.symm hb)]

/-- Folding the status-dict comprehension preserves key distinctness. -/
lemma save_foldl_nodup (results : List ProductStatus) :
    ∀ d : List (String × String), (d.map Prod.fst).Nodup →
      ((results.foldl (fun d item => dictInsert d item.handle item.status) d).map
        Prod.fst).Nodup := by
  induction results with
  | nil => intro d hd; exact hd
  | cons item rest ih =>
    intro d hd
    rw [List.foldl_cons]
    exact ih _ (nodup_keys_dictInsert _ _ _ hd)

/-- A key is absent from an association list iff its lookup fails. -/
lemma lookup_eq_none_iff (d : List (String × String)) (h : String) :
    d.lookup h = none ↔ h ∉ d.map Prod.fst := by
  induction d with
  | nil => simp
  | cons p rest ih =>
    obtain ⟨k, v⟩ := p
    by_cases hb : h = k
    · subst hb; simp [List.lookup]
    · have hbeq : (h == k) = false := beq_eq_false_iff_ne.mpr hb
      simp [List.lookup, hbeq, ih, hb]

/-- C9: the persisted snapshot binds every distinct handle of the results list
exactly once, and binds it to the status of that handle's last occurrence in
the list. -/
theorem save_current_status_last_wins :
    (∀ results : List ProductStatus,
      ((save_current_status results).map Prod.fst).Nodup) ∧
    (∀ (results : List ProductStatus) (h : String),
      (save_current_status results).lookup h =
        (results.reverse.find? (fun i => i.handle == h)).map (fun i => i.status)) ∧
    (∀ (results : List ProductStatus) (h : String),
      h ∈ (save_current_status results).map Prod.fst ↔
        h ∈ results.map (fun i => i.handle)) := by
  have hlook : ∀ (results : List ProductStatus) (h : String),
      (save_current_status results).lookup h =
        (results.reverse.find? (fun i => i.handle == h)).map (fun i => i.status) := by
    intro results h
    rw [save_current_status, save_foldl_lookup]
    cases results.reverse.find? (fun i => i.handle == h) <;> rfl
  refine ⟨fun results => save_foldl_nodup results [] (by simp), hlook, ?_⟩
  intro results h
  rw [← not_iff_not, ← lookup_eq_none_iff, hlook]
  simp [Option.map_eq_none', List.find?_eq_none, List.mem_map]

/-! ## Page classification and fetch-failure states -/

/-- C2: classification is a case-insensitive substring search with fixed
precedence: "sold out" wins over "add to cart"/"add to basket", which win
over the unknown fallback; in particular a page containing both phrases
classifies as sold out, and matching ignores letter case. -/
theorem classify_spec :
    (∀ t : String, strContains (lowerStr t) "sold out" = true →
      classifyText t = "sold out") ∧
    (∀ t : String, strContains (lowerStr t) "sold out" = false →
      strContains (lowerStr t) "add to cart" = true ∨
        strContains (lowerStr t) "add to basket" = true →
      classifyText t = "available") ∧
    (∀ t : String, strContains (lowerStr t) "sold out" = false →
      strContains (lowerStr t) "add to cart" = false →
      strContains (lowerStr t) "add to basket" = false →
      classifyText t = "unknown â€“ check page manually") ∧
    (∀ t : String, strContains (lowerStr t) "sold out" = true →
      strContains (lowerStr t) "add to cart" = true →
      classifyText t = "sold out") ∧
    classifyText "... Add to Cart ... Sold Out ..." = "sold out" ∧
    classifyText "random text" = "unknown â€“ check page manually" ∧
    classifyText "ADD TO BASKET" = "available" := by
  refine ⟨?_, ?_, ?_, ?_, by decide, by decide, by decide⟩
  · intro t h; simp [classifyText, h]
  · intro t h1 h2
    rcases h2 with h2 | h2 <;> simp [classifyText, h1, h2]
  · intro t h1 h2 h3; simp [classifyText, h1, h2, h3]
  · intro t h1 h2; simp [classifyText, h1]

/-- C2 witness: a page containing both phrases, instantiating the precedence
conjunct at a concrete text. -/
theorem classify_spec_witness :
    classifyText "Sold Out but Add to Cart" = "sold out" :=
  (classify_spec.2.2.2.1) "Sold Out but Add to Cart" (by decide) (by decide)

/-- A string with a strictly longer or differing prefix is not equal to
another string: witnessed by one character position inside the prefix. -/
lemma append_ne_of_getElem (a x b : String) (i : Nat) (hi : i < a.data.length)
    (hne : a.data[i]? ≠ b.data[i]?) : a ++ x ≠ b := by
  intro h
  apply hne
  have h2 := congrArg String.data h
  rw [String.data_append] at h2
  rw [← h2, List.getElem?_append_left hi]

/-- C6 counterexample to the claim as stated: an HTTP 100 response is neither
2xx nor 3xx, yet the code (which tests status >= 400) does not map it to an
unreachable state; it classifies the body text and reports "available". -/
theorem check_http100_counterexample :
    ¬(200 ≤ 100 ∧ 100 < 400) ∧
    (check_product_availability "atlas-ii" (.ok 100 "Add to cart")).status = "available" ∧
    ("available" : String) ≠ "unreachable (HTTP 100)" :=
  ⟨by decide, by decide, by decide⟩

/-- C6 (amended): a response with status code >= 400 yields the dedicated
"unreachable (HTTP code)" state, a transport failure yields the dedicated
"error: message" state, both are distinct from the sold-out, available and
unknown content states (in particular neither is folded into unknown), and
the scrape loop still produces a result for every handle. -/
theorem check_error_states :
    (∀ (handle : String) (code : Nat) (text : String), 400 ≤ code →
      (check_product_availability handle (.ok code text)).status =
          "unreachable (HTTP " ++ toString code ++ ")" ∧
        (check_product_availability handle (.ok code text)).status ≠ "sold out" ∧
        (check_product_availability handle (.ok code text)).status ≠ "available" ∧
        (check_product_availability handle (.ok code text)).status ≠
          "unknown â€“ check page manually") ∧
    (∀ handle msg : String,
      (check_product_availability handle (.exc msg)).status = "error: " ++ msg ∧
        (check_product_availability handle (.exc msg)).status ≠ "sold out" ∧
        (check_product_availability handle (.exc msg)).status ≠ "available" ∧
        (check_product_availability handle (.exc msg)).status ≠
          "unknown â€“ check page manually") ∧
    (∀ (handles : List String) (fetch : String → FetchResult),
      (scrape_products handles fetch).length = handles.length) := by
  refine ⟨?_, ?_, ?_⟩
  · intro handle code text hc
    have hs : (check_product_availability handle (.ok code text)).status =
        "unreachable (HTTP " ++ toString code ++ ")" := by
      simp [check_product_availability, hc]
    refine ⟨hs, ?_, ?_, ?_⟩ <;> rw [hs, String.append_assoc]
    · exact append_ne_of_getElem _ _ _ 0 (by decide) (by decide)
    · exact append_ne_of_getElem _ _ _ 0 (by decide) (by decide)
    · exact append_ne_of_getElem _ _ _ 2 (by decide) (by decide)
  · intro handle msg
    have hs : (check_product_availability handle (.exc msg)).status = "error: " ++ msg := rfl
    refine ⟨hs, ?_, ?_, ?_⟩ <;> rw [hs]
    · exact append_ne_of_getElem _ _ _ 0 (by decide) (by decide)
    · exact append_ne_of_getElem _ _ _ 0 (by decide) (by decide)
    · exact append_ne_of_getElem _ _ _ 0 (by decide) (by decide)
  · intro handles fetch
    simp [scrape_products]

/-- C6 witness: a concrete 404 response mapped to its unreachable state. -/
theorem check_error_states_witness :
    400 ≤ 404 ∧
    (check_product_availability "hydra" (.ok 404 "")).status = "unreachable (HTTP 404)" :=
  ⟨by decide, ((check_error_states.1) "hydra" 404 "" (by decide)).1.trans (by decide)⟩

/-! ## Notification and the main pipeline -/

/-- C7: with nothing to report the notifier returns success and makes no
outbound call; otherwise it makes exactly one outbound call and returns
success exactly when the endpoint answered 204, returning failure (not
raising) on any other response or a transport error. -/
theorem notify_contract :
    (∀ (url : String) (post : PostResp),
      send_discord_notification url [] [] post = (true, [])) ∧
    (∀ (url : String) (changes : List Change) (new_products : List NewProduct)
        (post : PostResp), ¬(changes = [] ∧ new_products = []) →
      (send_discord_notification url changes new_products post).2 = [.discordPost] ∧
        ((send_discord_notification url changes new_products post).1 = true ↔
          post = .ok 204)) := by
  constructor
  · intro url post; rfl
  · intro url changes new_products post h
    have hne : ¬(changes.isEmpty ∧ new_products.isEmpty) := by
      simpa [List.isEmpty_iff] using h
    unfold send_discord_notification
    rw [if_neg hne]
    cases post with
    | exc => exact ⟨rfl, by simp⟩
    | ok status => exact ⟨rfl, by simp⟩

/-- C7 witness: one change to report and a transport failure still produce
exactly one outbound call. -/
theorem notify_contract_witness :
    ¬(([⟨"atlas-ii", "sold out", "available", "u"⟩] : List Change) = [] ∧
        ([] : List NewProduct) = []) ∧
    (send_discord_notification "w" [⟨"atlas-ii", "sold out", "available", "u"⟩] []
        PostResp.exc).2 = [Event.discordPost] :=
  ⟨by simp, (notify_contract.2 "w" [⟨"atlas-ii", "sold out", "available", "u"⟩] []
    PostResp.exc (by simp)).1⟩

/-- The notification step never writes the snapshot cache, whatever the
webhook configuration and delivery outcome. -/
lemma notifyStep_no_cache_writes (w : Option String) (changes : List Change)
    (new_products : List NewProduct) (post : PostResp) :
    ((notifyStep w changes new_products post).2).filterMap cacheWriteOf = [] := by
  unfold notifyStep
  split
  · cases w with
    | none => rfl
    | some url =>
      dsimp only
      unfold send_discord_notification
      split
      · rfl
      · cases post <;> rfl
  · rfl

/-- C3: every invocation of the pipeline writes the durable snapshot exactly
once, with exactly the dict computed from the checked results, whatever the
environment (in particular whatever the notification outcome was). -/
theorem main_persists_snapshot_once (env : MainEnv) :
    (Sanginsnoop.main env).trace.filterMap cacheWriteOf =
      [save_current_status (Sanginsnoop.main env).results] := by
  unfold Sanginsnoop.main
  dsimp only
  rw [List.filterMap_append, notifyStep_no_cache_writes]
  rfl

/-! ## Discovery -/

